import Mathlib

/-!
Shallow embedding of `src/logetime.py` (42 logtime fetcher / aggregator).

Modelling conventions:
* UTC timestamps are integers counting seconds since the Unix epoch
  (`datetime` values in the source are always whole seconds as far as the
  aggregation logic is concerned; sub-second precision is irrelevant to all
  properties below and is dropped).
* A calendar day key (`begin_at.strftime("%Y-%m-%d")` of a UTC datetime) is
  represented by the epoch-day number `t.fdiv 86400`: two UTC timestamps have
  the same `%Y-%m-%d` rendering iff they lie in the same epoch day.
* A month key (`begin_at.strftime("%Y-%m")`) is represented by the pair
  `(year, month)` obtained from the civil-calendar conversion of the epoch day.
* Python `dict`s keyed by day / month strings are represented as functions
  `key → Option ℚ`; `none` means the key is absent.  Python `dict` equality
  (`==`) ignores insertion order, which matches extensional function equality.
* Python `float` arithmetic is modelled by exact rationals; `round(x, 2)`
  is modelled as round-half-to-even at two decimal places (`round2`), the
  rounding mode `round` uses on exact ties.
-/

namespace Logetime

/-! ### Civil calendar (models `strftime("%Y-%m-%d")` / `("%Y-%m")` on UTC datetimes) -/

/-- Epoch-day number of a UTC timestamp `t` in seconds: the model of the
day key `begin_at.strftime("%Y-%m-%d")`. -/
def dayKey (t : ℤ) : ℤ := t.fdiv 86400

/-- Convert an epoch-day number to a civil `(year, month, day)` date
(proleptic Gregorian calendar, as used by `datetime`). -/
def civilFromDays (z0 : ℤ) : ℤ × ℤ × ℤ :=
  let z := z0 + 719468
  let era := z.fdiv 146097
  let doe := z - era * 146097
  let yoe := (doe - doe.fdiv 1460 + doe.fdiv 36524 - doe.fdiv 146096).fdiv 365
  let y := yoe + era * 400
  let doy := doe - (365 * yoe + yoe.fdiv 4 - yoe.fdiv 100)
  let mp := (5 * doy + 2).fdiv 153
  let d := doy - (153 * mp + 2).fdiv 5 + 1
  let m := mp + (if mp < 10 then 3 else -9)
  (y + (if m ≤ 2 then 1 else 0), m, d)

/-- Convert a civil `(year, month, day)` date to its epoch-day number
(inverse of `civilFromDays`; used to build concrete test timestamps). -/
def daysFromCivil (y m d : ℤ) : ℤ :=
  let y2 := y - (if m ≤ 2 then 1 else 0)
  let era := y2.fdiv 400
  let yoe := y2 - era * 400
  let mp := m + (if 2 < m then -3 else 9)
  let doy := (153 * mp + 2).fdiv 5 + d - 1
  let doe := yoe * 365 + yoe.fdiv 4 - yoe.fdiv 100 + doy
  era * 146097 + doe - 719468

/-- Month key `(year, month)` of a UTC timestamp: the model of
`begin_at.strftime("%Y-%m")`. -/
def monthKey (t : ℤ) : ℤ × ℤ :=
  ((civilFromDays (dayKey t)).1, (civilFromDays (dayKey t)).2.1)

/-- Build a UTC timestamp (epoch seconds) from a civil date and
hour/minute/second of day. -/
def utc (y m d hh mm ss : ℤ) : ℤ :=
  daysFromCivil y m d * 86400 + hh * 3600 + mm * 60 + ss

/-! ### Rounding (models Python `round(x, 2)` on exact rationals) -/

/-- Round a rational to the nearest integer, ties to even
(the behaviour of Python `round` on an exact tie). -/
def rhe (y : ℚ) : ℤ :=
  if Int.fract y = 1 / 2 then (if Even ⌊y⌋ then ⌊y⌋ else ⌊y⌋ + 1) else round y

/-- Model of `round(x, 2)`. -/
def round2 (x : ℚ) : ℚ := (rhe (x * 100) : ℚ) / 100

/-! ### The data model -/

/-- One record of `/users/{username}/locations`: a session interval.
`end_at = none` models a JSON `null` end (an open, in-progress session).
`host` models the optional `"host"` field of the record (`latest.get("host",
"Unknown")` in the source). -/
structure Location where
  begin_at : ℤ
  end_at : Option ℤ
  host : Option String
deriving DecidableEq

/-- Duration in hours credited to an interval:
`((end_at or now) - begin_at).total_seconds() / 3600`. -/
def durationOf (now : ℤ) (loc : Location) : ℚ :=
  ((loc.end_at.getD now : ℤ) - loc.begin_at : ℤ) / 3600

/-! ### calculate_hours (lines 134-168 of `logetime.py`) -/

/-- Body of the `for loc in locations` loop of `calculate_hours`: compute the
interval's duration and add it to the daily bucket of `dayKey begin_at` and
the monthly bucket of `monthKey begin_at`, initialising an absent bucket to 0
first (`if day_key not in daily_hours: daily_hours[day_key] = 0`). -/
def calcStep (now : ℤ) (maps : (ℤ → Option ℚ) × (ℤ × ℤ → Option ℚ)) (loc : Location) :
    (ℤ → Option ℚ) × (ℤ × ℤ → Option ℚ) :=
  let duration := durationOf now loc
  let day_key := dayKey loc.begin_at
  let month_key := monthKey loc.begin_at
  (fun k => if k = day_key then some ((maps.1 day_key).getD 0 + duration) else maps.1 k,
   fun k => if k = month_key then some ((maps.2 month_key).getD 0 + duration) else maps.2 k)

/-- Embedding of `calculate_hours`: fold over the location list accumulating
raw (unrounded) daily and monthly totals keyed by the begin timestamp, then
round every bucket value to 2 decimals at the end.  `now` is the value of
`datetime.now(pytz.timezone("UTC"))` captured at entry. -/
def calculate_hours (now : ℤ) (locations : List Location) :
    (ℤ → Option ℚ) × (ℤ × ℤ → Option ℚ) :=
  let maps := locations.foldl (calcStep now) (fun _ => none, fun _ => none)
  (fun k => (maps.1 k).map round2, fun k => (maps.2 k).map round2)

/-- Single-bucket-map version of the loop body, parametrised by the key
function; `calcStep` is `mapStep` applied componentwise. -/
def mapStep {κ : Type} [DecidableEq κ] (key : Location → κ) (now : ℤ)
    (m : κ → Option ℚ) (loc : Location) : κ → Option ℚ :=
  fun k => if k = key loc then some ((m (key loc)).getD 0 + durationOf now loc) else m k

/-- Exact (pre-rounding) total accumulated into the bucket of key `k` under
the key function `key`: the sum of the durations of exactly those intervals
whose `key` is `k`. -/
def rawBucket {κ : Type} [DecidableEq κ] (key : Location → κ) (now : ℤ)
    (locs : List Location) (k : κ) : ℚ :=
  ((locs.filter fun l => decide (key l = k)).map (durationOf now)).sum

/-- Sum of all interval durations of a run. -/
def totalDuration (now : ℤ) (locs : List Location) : ℚ :=
  (locs.map (durationOf now)).sum

/-- The day keys occurring in a location list (with multiplicity). -/
def dayKeyList (locs : List Location) : List ℤ :=
  locs.map fun l => dayKey l.begin_at

/-- Sum of the values of the returned `daily_hours` dict
(`sum(daily_hours.values())` in `main`): the keys of the dict are exactly
the day keys of the input intervals. -/
def dailyValuesSum (now : ℤ) (locs : List Location) : ℚ :=
  ∑ k in (dayKeyList locs).toFinset, ((calculate_hours now locs).1 k).getD 0

/-! ### get_current_session (lines 78-132 of `logetime.py`) -/

/-- The response of the `GET /locations/{id}` detail lookup
(`get_user_location`), restricted to the two fields the resolver reads.
`campus = some name` models a present `"campus"` key whose `"name"` is read;
`host = none` models an absent or `null` `"host"` key. -/
structure LocationInfo where
  campus : Option String
  host : Option String
deriving DecidableEq

/-- Python truthiness of an optional string: `None` and `""` are falsy. -/
def truthy : Option String → Bool
  | none => false
  | some s => !s.isEmpty

/-- First dot-separated segment of a string
(`host_parts = host.split('.'); host_parts[0]`): the characters up to the
first `'.'`. -/
def firstSegment (h : String) : String :=
  String.mk (h.data.takeWhile fun c => c ≠ '.')

/-- The cluster identifier resolved from the detail lookup:
set only when the `"host"` field is present and truthy
(`if "host" in location_info and location_info["host"]`), in which case it is
the first dot-separated segment of that field. -/
def clusterOf (info : LocationInfo) : Option String :=
  match info.host with
  | some h => if h.isEmpty then none else some (firstSegment h)
  | none => none

/-- The record returned for an open session. -/
structure CurrentSession where
  begin_at : ℤ
  duration_hours : ℚ
  location : String
deriving DecidableEq

/-- Embedding of `get_current_session` from the point where the most recent
location record `latest` has been fetched: if `end_at` is non-null the user is
not logged in and the function returns `None`; otherwise it builds a
`CurrentSession` from the current UTC time `now` and the detail lookup
`info`. -/
def get_current_session (now : ℤ) (latest : Location) (info : LocationInfo) :
    Option CurrentSession :=
  match latest.end_at with
  | some _ => none
  | none =>
    let duration_hours : ℚ := ((now : ℚ) - (latest.begin_at : ℚ)) / 3600
    let host := latest.host.getD "Unknown"
    let campus := info.campus
    let cluster := clusterOf info
    let location :=
      if truthy campus && truthy cluster then campus.getD "" ++ " - " ++ cluster.getD ""
      else host
    some ⟨latest.begin_at, round2 duration_hours, location⟩

/-! ### format_time_difference (lines 221-237 of `logetime.py`) -/

/-- Whether a year is a Gregorian leap year. -/
def isLeap (y : ℤ) : Bool := (y % 4 == 0 && y % 100 != 0) || y % 400 == 0

/-- Number of days in a civil month. -/
def daysInMonth (y m : ℤ) : ℤ :=
  if m = 2 then (if isLeap y then 29 else 28)
  else if m = 4 ∨ m = 6 ∨ m = 9 ∨ m = 11 then 30 else 31

/-- Model of `start_time_str.replace("Z", "+00:00")` on the character list. -/
def replaceZ : List Char → List Char
  | [] => []
  | c :: rest =>
    if c = 'Z' then '+' :: '0' :: '0' :: ':' :: '0' :: '0' :: replaceZ rest
    else c :: replaceZ rest

/-- Numeric value of two decimal digit characters. -/
def twoDigits (a b : Char) : ℤ := (a.toNat - 48) * 10 + (b.toNat - 48)

/-- Model of `datetime.fromisoformat` restricted to offset-aware inputs:
accepts `YYYY-MM-DD*HH:MM:SS±HH:MM` (any single separator character, as
`fromisoformat` allows) with in-range fields, yielding epoch seconds in UTC.
Everything else is `none`, covering both inputs on which `fromisoformat`
raises `ValueError` and well-formed naive timestamps without an offset, whose
subtraction from the aware `now` raises `TypeError`; both exceptions are
caught by the same `except` clause in the source. -/
def parseISO (cs : List Char) : Option ℤ :=
  match cs with
  | [y1, y2, y3, y4, g1, mo1, mo2, g2, d1, d2, _sep,
     h1, h2, c1, mi1, mi2, c2, s1, s2, sg, oh1, oh2, c3, om1, om2] =>
    if ([y1, y2, y3, y4, mo1, mo2, d1, d2, h1, h2, mi1, mi2, s1, s2,
         oh1, oh2, om1, om2].all Char.isDigit
        && g1 == '-' && g2 == '-' && c1 == ':' && c2 == ':' && c3 == ':'
        && (sg == '+' || sg == '-')) then
      let y := twoDigits y1 y2 * 100 + twoDigits y3 y4
      let mo := twoDigits mo1 mo2
      let d := twoDigits d1 d2
      let hh := twoDigits h1 h2
      let mi := twoDigits mi1 mi2
      let ss := twoDigits s1 s2
      let oh := twoDigits oh1 oh2
      let om := twoDigits om1 om2
      if 1 ≤ y && 1 ≤ mo && mo ≤ 12 && 1 ≤ d && d ≤ daysInMonth y mo
          && hh ≤ 23 && mi ≤ 59 && ss ≤ 59 && oh ≤ 23 && om ≤ 59 then
        let offset := (if sg == '-' then -1 else 1) * (oh * 3600 + om * 60)
        some (daysFromCivil y mo d * 86400 + hh * 3600 + mi * 60 + ss - offset)
      else none
    else none
  | _ => none

/-- Embedding of `format_time_difference`: parse the start time (after
substituting `Z` with `+00:00`), subtract it from `now`, and render the
difference as `"{hours}h {minutes}m"`, or `"{minutes}m"` when `hours ≤ 0`.
If the try-block raises (modelled by `parseISO = none`) the except clause
returns the placeholder string. -/
def format_time_difference (now : ℤ) (start_time_str : String) : String :=
  match parseISO (replaceZ start_time_str.data) with
  | none => "Error calculating time"
  | some start_time =>
    let total := now - start_time
    let hours := total.fdiv 3600
    let minutes := (total.emod 3600).fdiv 60
    if 0 < hours then toString hours ++ "h " ++ toString minutes ++ "m"
    else toString minutes ++ "m"

/-! ### main's report totals (lines 258-263 of `logetime.py`) -/

/-- The 7 calendar days ending today:
`[(now - timedelta(days=i)).strftime("%Y-%m-%d") for i in range(7)]`,
with `today` the epoch-day number of the local date. -/
def recent_days (today : ℤ) : List ℤ :=
  (List.range 7).map fun i => today - (i : ℤ)

/-- `recent_daily_total`: `sum(daily_hours.get(day, 0) for day in recent_days)`. -/
def recent_daily_total (daily : ℤ → Option ℚ) (today : ℤ) : ℚ :=
  ((recent_days today).map fun d => (daily d).getD 0).sum

/-! ### Fold characterisation lemmas -/

theorem rawBucket_nil {κ : Type} [DecidableEq κ] (key : Location → κ) (now : ℤ) (k : κ) :
    rawBucket key now [] k = 0 := rfl

theorem rawBucket_cons {κ : Type} [DecidableEq κ] (key : Location → κ) (now : ℤ)
    (l : Location) (ls : List Location) (k : κ) :
    rawBucket key now (l :: ls) k =
      (if key l = k then durationOf now l else 0) + rawBucket key now ls k := by
  by_cases h : key l = k <;> simp [rawBucket, List.filter_cons, h]

theorem foldl_calcStep_eq (now : ℤ) (locs : List Location)
    (d0 : ℤ → Option ℚ) (m0 : ℤ × ℤ → Option ℚ) :
    locs.foldl (calcStep now) (d0, m0) =
      (locs.foldl (mapStep (fun l => dayKey l.begin_at) now) d0,
       locs.foldl (mapStep (fun l => monthKey l.begin_at) now) m0) := by
  induction locs generalizing d0 m0 with
  | nil => rfl
  | cons l ls ih => simpa [calcStep, mapStep] using ih _ _

theorem foldl_mapStep_getD {κ : Type} [DecidableEq κ] (key : Location → κ) (now : ℤ)
    (locs : List Location) (m0 : κ → Option ℚ) (k : κ) :
    ((locs.foldl (mapStep key now) m0) k).getD 0 = (m0 k).getD 0 + rawBucket key now locs k := by
  induction locs generalizing m0 with
  | nil => simp [rawBucket_nil]
  | cons l ls ih =>
    rw [List.foldl_cons, ih, rawBucket_cons]
    by_cases h : k = key l
    · subst h; simp [mapStep]; ring
    · have h2 : ¬ key l = k := fun hc => h hc.symm
      simp [mapStep, h, h2]

theorem foldl_mapStep_isSome {κ : Type} [DecidableEq κ] (key : Location → κ) (now : ℤ)
    (locs : List Location) (m0 : κ → Option ℚ) (k : κ) :
    ((locs.foldl (mapStep key now) m0) k).isSome =
      ((m0 k).isSome || locs.any fun l => decide (key l = k)) := by
  induction locs generalizing m0 with
  | nil => simp
  | cons l ls ih =>
    rw [List.foldl_cons, ih, List.any_cons]
    by_cases h : k = key l
    · subst h; simp [mapStep]
    · have h2 : ¬ key l = k := fun hc => h hc.symm
      simp [mapStep, h, h2]

theorem calculate_hours_fst (now : ℤ) (locs : List Location) (k : ℤ) :
    (calculate_hours now locs).1 k =
      if locs.any (fun l => decide (dayKey l.begin_at = k))
      then some (round2 (rawBucket (fun l => dayKey l.begin_at) now locs k)) else none := by
  have hpair := foldl_calcStep_eq now locs (fun _ => none) (fun _ => none)
  show ((locs.foldl (calcStep now) (fun _ => none, fun _ => none)).1 k).map round2 = _
  rw [hpair]
  have hs := foldl_mapStep_isSome (fun l => dayKey l.begin_at) now locs (fun _ => none) k
  have hg := foldl_mapStep_getD (fun l => dayKey l.begin_at) now locs (fun _ => none) k
  simp only [Option.isSome_none, Bool.false_or, Option.getD_none, zero_add] at hs hg
  cases ho : (locs.foldl (mapStep (fun l => dayKey l.begin_at) now) (fun _ => none)) k with
  | none => rw [ho] at hs; simp [← hs]; exact ho
  | some v =>
    rw [ho] at hs hg
    simp only [Option.isSome_some] at hs
    simp only [Option.getD_some] at hg
    rw [← hs]
    simp only [if_true]
    rw [ho]
    subst hg
    rfl

theorem calculate_hours_snd (now : ℤ) (locs : List Location) (k : ℤ × ℤ) :
    (calculate_hours now locs).2 k =
      if locs.any (fun l => decide (monthKey l.begin_at = k))
      then some (round2 (rawBucket (fun l => monthKey l.begin_at) now locs k)) else none := by
  have hpair := foldl_calcStep_eq now locs (fun _ => none) (fun _ => none)
  show ((locs.foldl (calcStep now) (fun _ => none, fun _ => none)).2 k).map round2 = _
  rw [hpair]
  have hs := foldl_mapStep_isSome (fun l => monthKey l.begin_at) now locs (fun _ => none) k
  have hg := foldl_mapStep_getD (fun l => monthKey l.begin_at) now locs (fun _ => none) k
  simp only [Option.isSome_none, Bool.false_or, Option.getD_none, zero_add] at hs hg
  cases ho : (locs.foldl (mapStep (fun l => monthKey l.begin_at) now) (fun _ => none)) k with
  | none => rw [ho] at hs; simp [← hs]; exact ho
  | some v =>
    rw [ho] at hs hg
    simp only [Option.isSome_some] at hs
    simp only [Option.getD_some] at hg
    rw [← hs]
    simp only [if_true]
    rw [ho]
    subst hg
    rfl

/-! ### Rounding error bounds -/

theorem abs_rhe_sub_le (y : ℚ) : |(rhe y : ℚ) - y| ≤ 1 / 2 := by
  unfold rhe
  split_ifs with h h2
  · have h3 : (⌊y⌋ : ℚ) - y = -(1 / 2) := by
      rw [← h, Int.fract]; ring
    rw [h3, abs_neg, abs_of_nonneg (by norm_num : (0:ℚ) ≤ 1 / 2)]
  · have h3 : ((⌊y⌋ + 1 : ℤ) : ℚ) - y = 1 / 2 := by
      push_cast
      have h4 : Int.fract y = y - ⌊y⌋ := rfl
      rw [h4] at h
      linarith
    rw [h3, abs_of_nonneg (by norm_num : (0:ℚ) ≤ 1 / 2)]
  · rw [abs_sub_comm]
    exact abs_sub_round y

theorem abs_round2_sub_le (x : ℚ) : |round2 x - x| ≤ 1 / 200 := by
  have h := abs_rhe_sub_le (x * 100)
  have hx : round2 x - x = ((rhe (x * 100) : ℚ) - x * 100) / 100 := by
    unfold round2; ring
  rw [hx, abs_div]
  rw [abs_of_pos (by norm_num : (0:ℚ) < 100)]
  linarith

/-! ### Partition of the total duration over the day buckets -/

theorem sum_rawBucket {κ : Type} [DecidableEq κ] (key : Location → κ) (now : ℤ)
    (locs : List Location) (t : Finset κ) (h : ∀ l ∈ locs, key l ∈ t) :
    ∑ k in t, rawBucket key now locs k = totalDuration now locs := by
  induction locs with
  | nil => simp [rawBucket_nil, totalDuration]
  | cons l ls ih =>
    have hsplit : ∀ k, rawBucket key now (l :: ls) k =
        (if key l = k then durationOf now l else 0) + rawBucket key now ls k :=
      fun k => rawBucket_cons key now l ls k
    calc ∑ k in t, rawBucket key now (l :: ls) k
        = ∑ k in t, ((if key l = k then durationOf now l else 0) + rawBucket key now ls k) :=
          Finset.sum_congr rfl fun k _ => hsplit k
      _ = (∑ k in t, if key l = k then durationOf now l else 0)
            + ∑ k in t, rawBucket key now ls k := Finset.sum_add_distrib
      _ = durationOf now l + totalDuration now ls := by
          rw [Finset.sum_ite_eq t (key l) (fun _ => durationOf now l),
            if_pos (h l (List.mem_cons_self l ls)), ih fun x hx => h x (List.mem_cons_of_mem l hx)]
      _ = totalDuration now (l :: ls) := by simp [totalDuration]

theorem mem_dayKeyList_any (locs : List Location) (k : ℤ) (hk : k ∈ dayKeyList locs) :
    (locs.any fun l => decide (dayKey l.begin_at = k)) = true := by
  rw [List.any_eq_true]
  obtain ⟨l, hl, hlk⟩ := List.mem_map.mp hk
  exact ⟨l, hl, by simpa using hlk⟩

theorem dailyValuesSum_eq (now : ℤ) (locs : List Location) :
    dailyValuesSum now locs =
      ∑ k in (dayKeyList locs).toFinset,
        round2 (rawBucket (fun l => dayKey l.begin_at) now locs k) := by
  refine Finset.sum_congr rfl fun k hk => ?_
  rw [calculate_hours_fst, if_pos (mem_dayKeyList_any locs k (List.mem_toFinset.mp hk))]
  rfl

/-! ### Permutation invariance infrastructure -/

theorem perm_any_eq {α : Type} (p : α → Bool) {l1 l2 : List α} (h : l1.Perm l2) :
    l1.any p = l2.any p := by
  cases hb : l2.any p with
  | true =>
    rw [List.any_eq_true] at hb ⊢
    obtain ⟨x, hx, hpx⟩ := hb
    exact ⟨x, h.mem_iff.mpr hx, hpx⟩
  | false =>
    rw [List.any_eq_false] at hb ⊢
    exact fun x hx => hb x (h.mem_iff.mp hx)

theorem perm_rawBucket_eq {κ : Type} [DecidableEq κ] (key : Location → κ) (now : ℤ)
    {l1 l2 : List Location} (h : l1.Perm l2) (k : κ) :
    rawBucket key now l1 k = rawBucket key now l2 k :=
  ((h.filter _).map _).sum_eq

/-! ### Claims -/

/-- C1: every interval's entire duration is credited to exactly one daily
bucket and exactly one monthly bucket, both keyed by its begin timestamp: the
daily bucket of key `k` holds the rounded sum of the full durations of exactly
those intervals whose begin timestamp falls on day `k` (likewise for months),
and an interval from 2025-03-31T23:00Z to 2025-04-01T01:00Z credits all 2
hours to day 2025-03-31 and month 2025-03, with no bucket for 2025-04-01 or
month 2025-04. -/
theorem C1_full_duration_single_bucket (now : ℤ) (locs : List Location)
    (k : ℤ) (ym : ℤ × ℤ) :
    (calculate_hours now locs).1 k =
      (if locs.any (fun l => decide (dayKey l.begin_at = k))
       then some (round2 (rawBucket (fun l => dayKey l.begin_at) now locs k)) else none)
  ∧ (calculate_hours now locs).2 ym =
      (if locs.any (fun l => decide (monthKey l.begin_at = ym))
       then some (round2 (rawBucket (fun l => monthKey l.begin_at) now locs ym)) else none)
  ∧ (calculate_hours now
        [⟨utc 2025 3 31 23 0 0, some (utc 2025 4 1 1 0 0), none⟩]).1
        (daysFromCivil 2025 3 31) = some 2
  ∧ (calculate_hours now
        [⟨utc 2025 3 31 23 0 0, some (utc 2025 4 1 1 0 0), none⟩]).2 (2025, 3) = some 2
  ∧ (calculate_hours now
        [⟨utc 2025 3 31 23 0 0, some (utc 2025 4 1 1 0 0), none⟩]).1
        (daysFromCivil 2025 4 1) = none
  ∧ (calculate_hours now
        [⟨utc 2025 3 31 23 0 0, some (utc 2025 4 1 1 0 0), none⟩]).2 (2025, 4) = none := by
  have hdur : durationOf now ⟨utc 2025 3 31 23 0 0, some (utc 2025 4 1 1 0 0), none⟩ = 2 := by
    unfold durationOf
    simp only [Option.getD_some]
    norm_num [utc, daysFromCivil, Int.fdiv]
  have hr2 : round2 2 = 2 := by norm_num [round2, rhe, Int.fract, round_eq]
  have hday : dayKey (utc 2025 3 31 23 0 0) = daysFromCivil 2025 3 31 := by decide
  have hmon : monthKey (utc 2025 3 31 23 0 0) = (2025, 3) := by decide
  refine ⟨calculate_hours_fst now locs k, calculate_hours_snd now locs ym, ?_, ?_, ?_, ?_⟩
  · rw [calculate_hours_fst,
      show ([⟨utc 2025 3 31 23 0 0, some (utc 2025 4 1 1 0 0), none⟩] : List Location).any
          (fun l => decide (dayKey l.begin_at = daysFromCivil 2025 3 31)) = true from by decide,
      rawBucket_cons, rawBucket_nil, add_zero, hdur]
    simp [hday, hr2]
  · rw [calculate_hours_snd,
      show ([⟨utc 2025 3 31 23 0 0, some (utc 2025 4 1 1 0 0), none⟩] : List Location).any
          (fun l => decide (monthKey l.begin_at = (2025, 3))) = true from by decide,
      rawBucket_cons, rawBucket_nil, add_zero, hdur]
    simp [hmon, hr2]
  · rw [calculate_hours_fst,
      show ([⟨utc 2025 3 31 23 0 0, some (utc 2025 4 1 1 0 0), none⟩] : List Location).any
          (fun l => decide (dayKey l.begin_at = daysFromCivil 2025 4 1)) = false from by decide]
    rfl
  · rw [calculate_hours_snd,
      show ([⟨utc 2025 3 31 23 0 0, some (utc 2025 4 1 1 0 0), none⟩] : List Location).any
          (fun l => decide (monthKey l.begin_at = (2025, 4))) = false from by decide]
    rfl

/-- C2 (amended): each daily bucket is rounded to 2 decimals exactly once,
after all accumulation (the published value is `round2` of the exact
accumulated sum, never a sum of rounded values), and consequently the sum of
the returned `daily_hours` values differs from the exact total duration by at
most 0.005 per distinct day bucket — not by at most a fixed 0.01, which fails
once three or more buckets round in the same direction. -/
theorem C2_round_once_per_bucket_bound (now : ℤ) (locs : List Location) :
    (∀ k : ℤ, (calculate_hours now locs).1 k =
        Option.map round2
          (if locs.any (fun l => decide (dayKey l.begin_at = k))
           then some (rawBucket (fun l => dayKey l.begin_at) now locs k) else none))
  ∧ |dailyValuesSum now locs - totalDuration now locs| ≤
      ((dayKeyList locs).toFinset.card : ℚ) / 200 := by
  constructor
  · intro k
    rw [calculate_hours_fst]
    by_cases h : locs.any (fun l => decide (dayKey l.begin_at = k)) = true
    · rw [if_pos h, if_pos h]; rfl
    · rw [if_neg h, if_neg h]; rfl
  · have ht : ∀ l ∈ locs, dayKey l.begin_at ∈ (dayKeyList locs).toFinset := fun l hl =>
      List.mem_toFinset.mpr (List.mem_map.mpr ⟨l, hl, rfl⟩)
    have hsum := sum_rawBucket (fun l => dayKey l.begin_at) now locs _ ht
    rw [dailyValuesSum_eq, ← hsum, ← Finset.sum_sub_distrib]
    calc |∑ k in (dayKeyList locs).toFinset,
            (round2 (rawBucket (fun l => dayKey l.begin_at) now locs k)
              - rawBucket (fun l => dayKey l.begin_at) now locs k)|
        ≤ ∑ k in (dayKeyList locs).toFinset,
            |round2 (rawBucket (fun l => dayKey l.begin_at) now locs k)
              - rawBucket (fun l => dayKey l.begin_at) now locs k| :=
          Finset.abs_sum_le_sum_abs _ _
      _ ≤ (dayKeyList locs).toFinset.card • ((1 : ℚ) / 200) :=
          Finset.sum_le_card_nsmul _ _ _ fun k _ => abs_round2_sub_le _
      _ = ((dayKeyList locs).toFinset.card : ℚ) / 200 := by
          rw [nsmul_eq_mul]; ring

/-- C2 counterexample: five disjoint closed 27-second intervals on five
distinct days.  Each exact bucket value 0.0075 rounds up to 0.01, so the sum
of the returned daily values is 0.05 while the exact total is 0.0375 — a gap
of 0.0125, outside the claimed 0.01 tolerance. -/
theorem C2_tolerance_counterexample :
    dailyValuesSum 0
        [⟨0, some 27, none⟩, ⟨86400, some 86427, none⟩, ⟨172800, some 172827, none⟩,
         ⟨259200, some 259227, none⟩, ⟨345600, some 345627, none⟩] = 1 / 20
  ∧ totalDuration 0
        [⟨0, some 27, none⟩, ⟨86400, some 86427, none⟩, ⟨172800, some 172827, none⟩,
         ⟨259200, some 259227, none⟩, ⟨345600, some 345627, none⟩] = 3 / 80
  ∧ ¬ |dailyValuesSum 0
        [⟨0, some 27, none⟩, ⟨86400, some 86427, none⟩, ⟨172800, some 172827, none⟩,
         ⟨259200, some 259227, none⟩, ⟨345600, some 345627, none⟩]
      - totalDuration 0
        [⟨0, some 27, none⟩, ⟨86400, some 86427, none⟩, ⟨172800, some 172827, none⟩,
         ⟨259200, some 259227, none⟩, ⟨345600, some 345627, none⟩]| ≤ 1 / 100 := by
  have hdur : ∀ b e : ℤ, e - b = 27 → durationOf 0 ⟨b, some e, none⟩ = 3 / 400 := by
    intro b e he
    unfold durationOf
    simp only [Option.getD_some]
    rw [he]
    norm_num
  have hds : dailyValuesSum 0
      [⟨0, some 27, none⟩, ⟨86400, some 86427, none⟩, ⟨172800, some 172827, none⟩,
       ⟨259200, some 259227, none⟩, ⟨345600, some 345627, none⟩] = 1 / 20 := by
    have hfin : (dayKeyList
        [⟨0, some 27, none⟩, ⟨86400, some 86427, none⟩, ⟨172800, some 172827, none⟩,
         ⟨259200, some 259227, none⟩, ⟨345600, some 345627, none⟩]).toFinset
        = ({0, 1, 2, 3, 4} : Finset ℤ) := by decide
    have hcase : ∀ k b e : ℤ, e - b = 27 →
        ([⟨0, some 27, none⟩, ⟨86400, some 86427, none⟩, ⟨172800, some 172827, none⟩,
          ⟨259200, some 259227, none⟩, ⟨345600, some 345627, none⟩] : List Location).filter
          (fun l => decide (dayKey l.begin_at = k)) = [⟨b, some e, none⟩] →
        round2 (rawBucket (fun l => dayKey l.begin_at) 0
          [⟨0, some 27, none⟩, ⟨86400, some 86427, none⟩, ⟨172800, some 172827, none⟩,
           ⟨259200, some 259227, none⟩, ⟨345600, some 345627, none⟩] k) = 1 / 100 := by
      intro k b e he hf
      unfold rawBucket
      rw [hf, List.map_cons, List.map_nil, List.sum_cons, List.sum_nil, add_zero, hdur b e he]
      norm_num [round2, rhe, Int.fract, round_eq]
    have hval : ∀ k : ℤ, k ∈ ({0, 1, 2, 3, 4} : Finset ℤ) →
        round2 (rawBucket (fun l => dayKey l.begin_at) 0
          [⟨0, some 27, none⟩, ⟨86400, some 86427, none⟩, ⟨172800, some 172827, none⟩,
           ⟨259200, some 259227, none⟩, ⟨345600, some 345627, none⟩] k) = 1 / 100 := by
      intro k hk
      fin_cases hk
      · exact hcase 0 0 27 (by decide) (by decide)
      · exact hcase 1 86400 86427 (by decide) (by decide)
      · exact hcase 2 172800 172827 (by decide) (by decide)
      · exact hcase 3 259200 259227 (by decide) (by decide)
      · exact hcase 4 345600 345627 (by decide) (by decide)
    rw [dailyValuesSum_eq, hfin, Finset.sum_congr rfl hval, Finset.sum_const,
      show ({0, 1, 2, 3, 4} : Finset ℤ).card = 5 from by decide]
    norm_num
  have htd : totalDuration 0
      [⟨0, some 27, none⟩, ⟨86400, some 86427, none⟩, ⟨172800, some 172827, none⟩,
       ⟨259200, some 259227, none⟩, ⟨345600, some 345627, none⟩] = 3 / 80 := by
    unfold totalDuration
    rw [List.map_cons, List.map_cons, List.map_cons, List.map_cons, List.map_cons,
      List.map_nil, List.sum_cons, List.sum_cons, List.sum_cons, List.sum_cons,
      List.sum_cons, List.sum_nil, hdur 0 27 (by decide), hdur 86400 86427 (by decide),
      hdur 172800 172827 (by decide), hdur 259200 259227 (by decide),
      hdur 345600 345627 (by decide)]
    norm_num
  refine ⟨hds, htd, ?_⟩
  rw [hds, htd]
  intro hle
  rw [show (1 : ℚ) / 20 - 3 / 80 = 1 / 80 from by norm_num,
    abs_of_nonneg (by norm_num : (0:ℚ) ≤ 1 / 80)] at hle
  norm_num at hle

/-- C3: the aggregation result is invariant under permutation of the input
sequence — both returned maps are equal (as Python dicts compare equal
regardless of insertion order). -/
theorem C3_order_invariant (now : ℤ) (l1 l2 : List Location) (h : l1.Perm l2) :
    calculate_hours now l1 = calculate_hours now l2 := by
  have hd : ∀ k, (calculate_hours now l1).1 k = (calculate_hours now l2).1 k := by
    intro k
    rw [calculate_hours_fst, calculate_hours_fst, perm_any_eq _ h,
      perm_rawBucket_eq (fun l => dayKey l.begin_at) now h k]
  have hm : ∀ k, (calculate_hours now l1).2 k = (calculate_hours now l2).2 k := by
    intro k
    rw [calculate_hours_snd, calculate_hours_snd, perm_any_eq _ h,
      perm_rawBucket_eq (fun l => monthKey l.begin_at) now h k]
  exact Prod.ext (funext hd) (funext hm)

theorem C3_order_invariant_witness :
    ([⟨0, some 3600, none⟩, ⟨86400, none, none⟩] : List Location).Perm
      [⟨86400, none, none⟩, ⟨0, some 3600, none⟩]
  ∧ calculate_hours 0 [⟨0, some 3600, none⟩, ⟨86400, none, none⟩]
      = calculate_hours 0 [⟨86400, none, none⟩, ⟨0, some 3600, none⟩] :=
  ⟨by decide, C3_order_invariant 0 _ _ (by decide)⟩

/-- C4: an interval with open `end_at` uses the current UTC wall-clock time as
provisional end: it contributes `(now - begin_at)` hours (before final
rounding) to the day and month buckets of its begin timestamp, and that
contribution is monotonically non-decreasing in `now`. -/
theorem C4_open_session_uses_now (now now2 b : ℤ) (host : Option String)
    (hle : now ≤ now2) :
    durationOf now ⟨b, none, host⟩ = ((now : ℚ) - b) / 3600
  ∧ durationOf now ⟨b, none, host⟩ ≤ durationOf now2 ⟨b, none, host⟩
  ∧ (calculate_hours now [⟨b, none, host⟩]).1 (dayKey b)
      = some (round2 (((now : ℚ) - b) / 3600))
  ∧ (calculate_hours now [⟨b, none, host⟩]).2 (monthKey b)
      = some (round2 (((now : ℚ) - b) / 3600)) := by
  have hdef : ∀ n : ℤ, durationOf n ⟨b, none, host⟩ = ((n : ℚ) - b) / 3600 := by
    intro n
    unfold durationOf
    simp only [Option.getD_none]
    push_cast
    ring
  refine ⟨hdef now, ?_, ?_, ?_⟩
  · rw [hdef now, hdef now2]
    have hc : (now : ℚ) ≤ (now2 : ℚ) := by exact_mod_cast hle
    have h3600 : (0 : ℚ) < 3600 := by norm_num
    exact (div_le_div_iff_of_pos_right h3600).mpr (by linarith)
  · rw [calculate_hours_fst,
      show (([⟨b, none, host⟩] : List Location).any
          fun l => decide (dayKey l.begin_at = dayKey b)) = true from by simp,
      rawBucket_cons, rawBucket_nil, add_zero, hdef now]
    simp
  · rw [calculate_hours_snd,
      show (([⟨b, none, host⟩] : List Location).any
          fun l => decide (monthKey l.begin_at = monthKey b)) = true from by simp,
      rawBucket_cons, rawBucket_nil, add_zero, hdef now]
    simp

theorem C4_open_session_uses_now_witness :
    (0 : ℤ) ≤ 7200
  ∧ (durationOf 0 ⟨0, none, none⟩ = ((0 : ℚ) - 0) / 3600
      ∧ durationOf 0 ⟨0, none, none⟩ ≤ durationOf 7200 ⟨0, none, none⟩
      ∧ (calculate_hours 0 [⟨0, none, none⟩]).1 (dayKey 0)
          = some (round2 (((0 : ℚ) - 0) / 3600))
      ∧ (calculate_hours 0 [⟨0, none, none⟩]).2 (monthKey 0)
          = some (round2 (((0 : ℚ) - 0) / 3600))) :=
  ⟨by decide, C4_open_session_uses_now 0 7200 0 none (by decide)⟩

/-- C5 (amended): `recent_daily_total` sums the `daily_hours` values of the 7
calendar days ending today (today minus 0..6 days), treating a missing day as
0; if the 7 window days all have records of identical value `d` the total is
`7*d`, and it is strictly less when some window day is missing provided
`0 < d` (for `d = 0` a missing day leaves the total equal to `7*d = 0`). -/
theorem C5_recent_window (daily : ℤ → Option ℚ) (today : ℤ) (d : ℚ) :
    recent_daily_total daily today = ∑ i in Finset.range 7, (daily (today - (i : ℤ))).getD 0
  ∧ ((∀ i : ℕ, i < 7 → daily (today - (i : ℤ)) = some d) →
      recent_daily_total daily today = 7 * d)
  ∧ (0 < d →
      (∀ i : ℕ, i < 7 → daily (today - (i : ℤ)) = none ∨ daily (today - (i : ℤ)) = some d) →
      (∃ i : ℕ, i < 7 ∧ daily (today - (i : ℤ)) = none) →
      recent_daily_total daily today < 7 * d) := by
  have hfin : recent_daily_total daily today
      = ∑ i in Finset.range 7, (daily (today - (i : ℤ))).getD 0 := by
    unfold recent_daily_total recent_days
    rw [List.map_map]
    rfl
  refine ⟨hfin, ?_, ?_⟩
  · intro hall
    rw [hfin]
    calc ∑ i in Finset.range 7, (daily (today - (i : ℤ))).getD 0
        = ∑ _i in Finset.range 7, d := by
          refine Finset.sum_congr rfl fun i hi => ?_
          rw [hall i (Finset.mem_range.mp hi)]
          rfl
      _ = 7 * d := by
          rw [Finset.sum_const, Finset.card_range, nsmul_eq_mul]
          norm_num
  · intro hd hall hex
    obtain ⟨i0, hi0, hnone⟩ := hex
    rw [hfin]
    have hmem : i0 ∈ Finset.range 7 := Finset.mem_range.mpr hi0
    rw [← Finset.add_sum_erase _ _ hmem, hnone]
    have hrest : ∑ i in (Finset.range 7).erase i0, (daily (today - (i : ℤ))).getD 0
        ≤ ((Finset.range 7).erase i0).card • d := by
      refine Finset.sum_le_card_nsmul _ _ _ fun i hi => ?_
      rcases hall i (Finset.mem_range.mp (Finset.mem_of_mem_erase hi)) with h | h
      · rw [h]
        exact le_of_lt hd
      · rw [h]
        exact le_of_eq rfl
    have hcard : ((Finset.range 7).erase i0).card = 6 := by
      rw [Finset.card_erase_of_mem hmem, Finset.card_range]
    rw [hcard] at hrest
    have h6 : (6 : ℕ) • d = 6 * d := by rw [nsmul_eq_mul]; norm_num
    rw [h6] at hrest
    have : (none : Option ℚ).getD 0 = 0 := rfl
    rw [this]
    linarith

theorem C5_recent_window_witness :
    recent_daily_total (fun k : ℤ => if 0 ≤ k ∧ k ≤ 6 then (some (1 : ℚ)) else none) 6
      = 7 * 1 :=
  (C5_recent_window (fun k : ℤ => if 0 ≤ k ∧ k ≤ 6 then (some (1 : ℚ)) else none) 6 1).2.1
    (by intro i hi; interval_cases i <;> norm_num)

/-- C5 counterexample: seven-day window ending on day 5 over a map recording
days 0..5 with identical value `d = 0`; day `-1` is missing, yet the total is
exactly `7 * 0`, not less — the "less when days are missing" clause fails at
`d = 0`. -/
theorem C5_not_less_counterexample :
    (fun k : ℤ => if 0 ≤ k ∧ k ≤ 5 then (some (0 : ℚ)) else none) 5 = some 0
  ∧ (fun k : ℤ => if 0 ≤ k ∧ k ≤ 5 then (some (0 : ℚ)) else none) 4 = some 0
  ∧ (fun k : ℤ => if 0 ≤ k ∧ k ≤ 5 then (some (0 : ℚ)) else none) 3 = some 0
  ∧ (fun k : ℤ => if 0 ≤ k ∧ k ≤ 5 then (some (0 : ℚ)) else none) 2 = some 0
  ∧ (fun k : ℤ => if 0 ≤ k ∧ k ≤ 5 then (some (0 : ℚ)) else none) 1 = some 0
  ∧ (fun k : ℤ => if 0 ≤ k ∧ k ≤ 5 then (some (0 : ℚ)) else none) 0 = some 0
  ∧ (fun k : ℤ => if 0 ≤ k ∧ k ≤ 5 then (some (0 : ℚ)) else none) (5 - 6) = none
  ∧ recent_daily_total (fun k : ℤ => if 0 ≤ k ∧ k ≤ 5 then (some (0 : ℚ)) else none) 5
      = 7 * 0
  ∧ ¬ recent_daily_total (fun k : ℤ => if 0 ≤ k ∧ k ≤ 5 then (some (0 : ℚ)) else none) 5
      < 7 * 0 := by
  have htot : recent_daily_total
      (fun k : ℤ => if 0 ≤ k ∧ k ≤ 5 then (some (0 : ℚ)) else none) 5 = 0 := by
    have hlist : recent_days 5 = [5, 4, 3, 2, 1, 0, -1] := by decide
    unfold recent_daily_total
    rw [hlist]
    norm_num
  refine ⟨by norm_num, by norm_num, by norm_num, by norm_num, by norm_num, by norm_num,
    by norm_num, by rw [htot]; norm_num, by rw [htot]; norm_num⟩

/-- C6: the Session-Window Resolver returns no active session whenever the
most recent interval has a non-open `end_at`, and for an open interval it
returns a `CurrentSession` whose `duration_hours` is `(now_utc - begin_at)`
in hours rounded to 2 decimals (and whose `begin_at` is the interval's). -/
theorem C6_session_resolver (now b e : ℤ) (host : Option String) (info : LocationInfo) :
    get_current_session now ⟨b, some e, host⟩ info = none
  ∧ ∃ cs : CurrentSession, get_current_session now ⟨b, none, host⟩ info = some cs
      ∧ cs.begin_at = b
      ∧ cs.duration_hours = round2 (((now : ℚ) - b) / 3600) :=
  ⟨rfl, ⟨_, rfl, rfl, rfl⟩⟩

/-- C7: for an open session the location label is `"{campus} - {cluster}"`
exactly when both the campus name and the cluster identifier (first
dot-separated segment of the detail lookup's host field) are resolvable
(present and non-empty); otherwise it falls back to the raw host of the
latest record, which defaults to the literal `"Unknown"` when that field is
absent too. -/
theorem C7_location_label (now b : ℤ) (hostL : Option String) (info : LocationInfo) :
    ∃ cs : CurrentSession, get_current_session now ⟨b, none, hostL⟩ info = some cs
      ∧ cs.location = (if truthy info.campus && truthy (clusterOf info)
            then info.campus.getD "" ++ " - " ++ (clusterOf info).getD ""
            else hostL.getD "Unknown")
      ∧ ((truthy info.campus = false ∨ truthy (clusterOf info) = false) →
            cs.location = hostL.getD "Unknown")
      ∧ (info.campus = none → info.host = none → hostL = none →
            cs.location = "Unknown") := by
  refine ⟨_, rfl, rfl, ?_, ?_⟩
  · intro h
    show (if truthy info.campus && truthy (clusterOf info)
        then info.campus.getD "" ++ " - " ++ (clusterOf info).getD ""
        else hostL.getD "Unknown") = hostL.getD "Unknown"
    rcases h with h | h <;> rw [h] <;> simp
  · intro hc hh hl
    show (if truthy info.campus && truthy (clusterOf info)
        then info.campus.getD "" ++ " - " ++ (clusterOf info).getD ""
        else hostL.getD "Unknown") = "Unknown"
    rw [hc, hl]
    simp [clusterOf, hh, truthy]

theorem C7_location_label_witness :
    (∃ cs : CurrentSession,
      get_current_session 0 ⟨0, none, some "h1.x"⟩
          ⟨some "Paris", some "c1r2s3.paris.42.fr"⟩ = some cs
        ∧ cs.location = "Paris - c1r2s3")
  ∧ ∃ cs : CurrentSession,
      get_current_session 0 ⟨0, none, none⟩ ⟨none, none⟩ = some cs
        ∧ cs.location = "Unknown" := by
  constructor
  · obtain ⟨cs, h1, h2, -, -⟩ :=
      C7_location_label 0 0 (some "h1.x") ⟨some "Paris", some "c1r2s3.paris.42.fr"⟩
    refine ⟨cs, h1, ?_⟩
    rw [h2]
    decide
  · obtain ⟨cs, h1, -, -, h4⟩ := C7_location_label 0 0 none ⟨none, none⟩
    exact ⟨cs, h1, h4 rfl rfl rfl⟩

/-- C8: an interval whose end precedes its begin is not rejected — the
aggregator computes a negative duration and silently adds it to the daily and
monthly buckets of the begin timestamp. -/
theorem C8_negative_duration (now b e : ℤ) (host : Option String) (hlt : e < b) :
    durationOf now ⟨b, some e, host⟩ < 0
  ∧ (calculate_hours now [⟨b, some e, host⟩]).1 (dayKey b)
      = some (round2 (((e : ℚ) - b) / 3600))
  ∧ (calculate_hours now [⟨b, some e, host⟩]).2 (monthKey b)
      = some (round2 (((e : ℚ) - b) / 3600)) := by
  have hdef : durationOf now ⟨b, some e, host⟩ = ((e : ℚ) - b) / 3600 := by
    unfold durationOf
    simp only [Option.getD_some]
    push_cast
    ring
  refine ⟨?_, ?_, ?_⟩
  · rw [hdef]
    apply div_neg_of_neg_of_pos
    · have hc : (e : ℚ) < b := by exact_mod_cast hlt
      linarith
    · norm_num
  · rw [calculate_hours_fst,
      show (([⟨b, some e, host⟩] : List Location).any
          fun l => decide (dayKey l.begin_at = dayKey b)) = true from by simp,
      rawBucket_cons, rawBucket_nil, add_zero, hdef]
    simp
  · rw [calculate_hours_snd,
      show (([⟨b, some e, host⟩] : List Location).any
          fun l => decide (monthKey l.begin_at = monthKey b)) = true from by simp,
      rawBucket_cons, rawBucket_nil, add_zero, hdef]
    simp

theorem C8_negative_duration_witness :
    (0 : ℤ) < 3600
  ∧ (durationOf 0 ⟨3600, some 0, none⟩ < 0
      ∧ (calculate_hours 0 [⟨3600, some 0, none⟩]).1 (dayKey 3600)
          = some (round2 (((0 : ℚ) - 3600) / 3600))
      ∧ (calculate_hours 0 [⟨3600, some 0, none⟩]).2 (monthKey 3600)
          = some (round2 (((0 : ℚ) - 3600) / 3600))) :=
  ⟨by decide, C8_negative_duration 0 3600 0 none (by decide)⟩

/-- C9: the elapsed-time formatter is total on strings — for every input it
either returns the error placeholder (exactly when the try-block raises,
i.e. the timestamp does not parse to an aware datetime) or an
`"{hours}h {minutes}m"` / `"{minutes}m"` rendering of the difference from
`now`, with the minutes component in `[0, 60)`; concretely, a malformed
input yields the placeholder and a well-formed one yields the rendering. -/
theorem C9_formatter_total (now : ℤ) (s : String) :
    ((parseISO (replaceZ s.data) = none
        ∧ format_time_difference now s = "Error calculating time")
      ∨ ∃ t : ℤ, parseISO (replaceZ s.data) = some t
          ∧ 0 ≤ ((now - t).emod 3600).fdiv 60
          ∧ ((now - t).emod 3600).fdiv 60 < 60
          ∧ format_time_difference now s =
              (if 0 < (now - t).fdiv 3600
               then toString ((now - t).fdiv 3600) ++ "h "
                  ++ toString (((now - t).emod 3600).fdiv 60) ++ "m"
               else toString (((now - t).emod 3600).fdiv 60) ++ "m"))
  ∧ format_time_difference now "not a timestamp" = "Error calculating time"
  ∧ format_time_difference (utc 2025 4 25 22 0 0) "2025-04-25T20:34:59Z" = "1h 25m" := by
  refine ⟨?_, rfl, by decide⟩
  cases hp : parseISO (replaceZ s.data) with
  | none =>
    left
    refine ⟨rfl, ?_⟩
    unfold format_time_difference
    rw [hp]
  | some t =>
    right
    have hm0 : (0 : ℤ) ≤ (now - t).emod 3600 := Int.emod_nonneg _ (by norm_num)
    have hm1 : (now - t).emod 3600 < 3600 := Int.emod_lt_of_pos _ (by norm_num)
    have hfd : ((now - t).emod 3600).fdiv 60 = ((now - t).emod 3600) / 60 :=
      Int.fdiv_eq_ediv _ (by norm_num)
    refine ⟨t, rfl, ?_, ?_, ?_⟩
    · rw [hfd]
      exact Int.ediv_nonneg hm0 (by norm_num)
    · rw [hfd]
      exact Int.ediv_lt_of_lt_mul (by norm_num) (by linarith)
    · unfold format_time_difference
      rw [hp]

/-- C10: on an empty interval list the aggregator returns two empty maps (no
key is present), and the report totals derived from them — `total_hours` and
`recent_daily_total`, both before and after final rounding — are 0. -/
theorem C10_empty_input (now today : ℤ) :
    (calculate_hours now []).1 = (fun _ => none)
  ∧ (calculate_hours now []).2 = (fun _ => none)
  ∧ dailyValuesSum now [] = 0
  ∧ round2 (dailyValuesSum now []) = 0
  ∧ recent_daily_total (calculate_hours now []).1 today = 0
  ∧ round2 (recent_daily_total (calculate_hours now []).1 today) = 0 := by
  have h1 : (calculate_hours now []).1 = (fun _ => none) := funext fun k => rfl
  have h2 : (calculate_hours now []).2 = (fun _ => none) := funext fun k => rfl
  have hr0 : round2 0 = 0 := by norm_num [round2, rhe, Int.fract, round_eq]
  have h3 : dailyValuesSum now [] = 0 := by
    unfold dailyValuesSum dayKeyList
    simp
  have h5 : recent_daily_total (calculate_hours now []).1 today = 0 := by
    rw [h1]
    unfold recent_daily_total
    apply List.sum_eq_zero
    intro x hx
    simp only [List.mem_map] at hx
    obtain ⟨d, -, rfl⟩ := hx
    rfl
  exact ⟨h1, h2, h3, by rw [h3, hr0], h5, by rw [h5, hr0]⟩

end Logetime
